import Mathlib

/-!
Shallow embedding of the `localdb.js` data layer of the Onlypans-ni-Raffy
repository (an in-browser lost-and-found store).

Modelling conventions, chosen to mirror the JavaScript source faithfully:

* The persisted store is a plain value of type `Store`; every public
  operation in the source is `load → mutate → save`, which in the embedding
  becomes a pure function `Store → … → Store × result`.
* JS strings are `String`; optional/nullable string fields are
  `Option String` (with `none` for `null`/`undefined`).
* `uuidv4()` and `new Date().toISOString()` are environment inputs: the
  fresh item id and the current timestamp are explicit arguments of the
  operations that use them.  ISO timestamps are compared with the JS `<`
  operator on strings, i.e. lexicographically, which is `String.lt` here.
* Found-report and claim ids are JS numbers; records imported through
  `importMerge` can carry arbitrary (even negative) integers, so ids are
  `Int`.  The sequence counters only ever hold values written by the
  program itself — `0` at init, `counter + 1`, or a `Math.max(…, 0)` that
  is always nonnegative — so they are `Nat`.
* `Array.prototype.sort((a, b) => (a.createdAt < b.createdAt ? 1 : -1))`:
  the comparator never returns 0, so it is not a consistent comparison
  function and ECMAScript leaves the resulting order implementation-defined.
  The call is modelled as a relation from the input to the admissible
  results — the permutations of the input that are pairwise non-strictly
  descending on `createdAt` (the comparator is consistent on distinct
  keys); the relative order of equal-`createdAt` elements is deliberately
  unconstrained.
* JS truthiness on optional strings (`v || d`, `if (v)`): `null`,
  `undefined` and the empty string are falsy.
-/

namespace LocalDB

/-- JS `v || d` on an optional string, returning a plain string default
(used for `category: category || "other"`): `null`/`undefined`/`""` fall
through to the default. -/
def jsOrD (v : Option String) (d : String) : String :=
  match v with
  | some s => if s = "" then d else s
  | none => d

/-- JS `v || null` on an optional string (used for `strand`, `email`,
`contact`, `photoPath`): a falsy value becomes `null`. -/
def jsOrNull (v : Option String) : Option String :=
  match v with
  | some s => if s = "" then none else some s
  | none => none

/-- JS truthiness of an optional string (`if (report.photoPath)`). -/
def truthyStr (v : Option String) : Bool :=
  match v with
  | some s => !(s == "")
  | none => false

/-- An `items` record (localdb.js line 75-88). -/
structure Item where
  id : String
  itemName : String
  studentId : String
  ownerName : String
  category : String
  strand : Option String
  email : Option String
  contact : Option String
  photoPath : Option String
  status : String
  createdAt : String
  foundPhotoPath : Option String := none
  lastClaimedAt : Option String := none
deriving DecidableEq, Repr

/-- A `found_reports` record (localdb.js line 118-126). -/
structure FoundReport where
  id : Int
  itemId : String
  finderName : String
  location : String
  photoPath : Option String
  status : String
  createdAt : String
deriving DecidableEq, Repr

/-- A `claims` record (localdb.js line 172-177). -/
structure Claim where
  id : Int
  itemId : String
  claimantName : String
  createdAt : String
deriving DecidableEq, Repr

/-- The `seq` counter map (localdb.js line 35). -/
structure SeqCounters where
  found_reports : Nat
  claims : Nat
deriving DecidableEq, Repr

/-- The whole persisted store (localdb.js `init`, line 30-39). -/
structure Store where
  items : List Item
  found_reports : List FoundReport
  claims : List Claim
  seq : SeqCounters
deriving DecidableEq, Repr

/-- `init()` (localdb.js line 30-39): the empty store. -/
def emptyStore : Store :=
  { items := [], found_reports := [], claims := [], seq := { found_reports := 0, claims := 0 } }

/-- Arguments of `addItem` (localdb.js line 62-71); `itemName`, `studentId`
and `ownerName` are passed through unchanged, the rest are optional. -/
structure AddItemArgs where
  itemName : String
  studentId : String
  ownerName : String
  strand : Option String := none
  email : Option String := none
  contact : Option String := none
  photoDataUrl : Option String := none
  category : Option String := none
deriving DecidableEq, Repr

/-- `addItem` (localdb.js line 62-92); `id` is the fresh `uuidv4()` value
and `now` the `nowIso()` timestamp, both environment inputs. -/
def addItem (db : Store) (id now : String) (a : AddItemArgs) : Store × Item :=
  let item : Item :=
    { id := id
      itemName := a.itemName
      studentId := a.studentId
      ownerName := a.ownerName
      category := jsOrD a.category "other"
      strand := jsOrNull a.strand
      email := jsOrNull a.email
      contact := jsOrNull a.contact
      photoPath := jsOrNull a.photoDataUrl
      status := "registered"
      createdAt := now }
  ({ db with items := db.items ++ [item] }, item)

/-- `getItem` (localdb.js line 94-98). -/
def getItem (db : Store) (id : String) : Option Item :=
  db.items.find? (fun x => x.id == id)

/-- The comparator `(a, b) => (a.createdAt < b.createdAt ? 1 : -1)`
(localdb.js line 104) as a "may precede" boolean: `a` may precede `b`
exactly when the comparator does not return a positive number.  Used below
to exhibit one admissible sort outcome. -/
def byCreatedAtDesc (a b : Item) : Bool :=
  !(decide (a.createdAt < b.createdAt))

/-- `array.sort((a, b) => (a.createdAt < b.createdAt ? 1 : -1))`
(localdb.js line 104), as a relation between the input array and the
possible results.  The comparator never returns 0: on items with equal
`createdAt` it returns -1 in both orientations, so it is not a consistent
comparison function and ECMAScript leaves the resulting order
implementation-defined (V8's TimSort, for instance, reverses runs of
equal-`createdAt` elements).  On items with distinct `createdAt` the
comparator is consistent, so an engine's sort returns some permutation of
the input that is pairwise non-strictly descending on `createdAt`; which
of those permutations is produced — in particular the relative order of
equal-`createdAt` items — is engine-specific and not determined by the
source. -/
def sortOutcomeByCreatedAtDesc (input l : List Item) : Prop :=
  l.Perm input ∧ l.Pairwise (fun a b => b.createdAt ≤ a.createdAt)

/-- `listItemsByStudent` (localdb.js line 100-105), as a relation from the
store and the argument to the possible return values: exact `===` match on
`studentId`, then the implementation-defined descending sort. -/
def listItemsByStudent (db : Store) (studentId : String) (l : List Item) : Prop :=
  sortOutcomeByCreatedAtDesc (db.items.filter (fun item => item.studentId == studentId)) l

/-- Arguments of `addFoundReport` (localdb.js line 114). -/
structure AddFoundReportArgs where
  itemId : String
  finderName : String
  location : String
  photoDataUrl : Option String := none
deriving DecidableEq, Repr

/-- `addFoundReport` (localdb.js line 114-130): increments the
`found_reports` sequence counter and appends a `pending` report carrying
the new counter value as its id. -/
def addFoundReport (db : Store) (now : String) (a : AddFoundReportArgs) : Store × FoundReport :=
  let n : Nat := db.seq.found_reports + 1
  let report : FoundReport :=
    { id := (n : Int)
      itemId := a.itemId
      finderName := a.finderName
      location := a.location
      photoPath := jsOrNull a.photoDataUrl
      status := "pending"
      createdAt := now }
  ({ db with
      found_reports := db.found_reports ++ [report]
      seq := { db.seq with found_reports := n } },
    report)

/-- Replace the first element satisfying `p` by its image under `f`,
leaving the rest untouched: JS `array.find(…)` followed by mutation of the
found object touches exactly the first match. -/
def updateFirst (p : α → Bool) (f : α → α) : List α → List α
  | [] => []
  | x :: xs => if p x then f x :: xs else x :: updateFirst p f xs

/-- `verifyReportMoveToLost` (localdb.js line 148-164): finds the report by
numeric id, then its item; on success marks the report `verified`, the item
`lost`, and copies a truthy report photo to `foundPhotoPath`. -/
def verifyReportMoveToLost (db : Store) (reportId : Int) : Store × Bool :=
  match db.found_reports.find? (fun x => x.id == reportId) with
  | none => (db, false)
  | some report =>
    match db.items.find? (fun x => x.id == report.itemId) with
    | none => (db, false)
    | some _ =>
      ({ db with
          found_reports :=
            updateFirst (fun x => x.id == reportId)
              (fun x => { x with status := "verified" }) db.found_reports
          items :=
            updateFirst (fun x => x.id == report.itemId)
              (fun x =>
                { x with
                    status := "lost"
                    foundPhotoPath :=
                      if truthyStr report.photoPath then report.photoPath
                      else x.foundPhotoPath }) db.items },
        true)

/-- `addClaim` (localdb.js line 166-183): `null` when the item is missing;
otherwise increments the `claims` counter, appends the claim and marks the
item `claimed` with `lastClaimedAt = claim.createdAt`. -/
def addClaim (db : Store) (now : String) (itemId claimantName : String) :
    Store × Option Claim :=
  match db.items.find? (fun x => x.id == itemId) with
  | none => (db, none)
  | some _ =>
    let n : Nat := db.seq.claims + 1
    let claim : Claim :=
      { id := (n : Int), itemId := itemId, claimantName := claimantName, createdAt := now }
    ({ db with
        claims := db.claims ++ [claim]
        items :=
          updateFirst (fun x => x.id == itemId)
            (fun x => { x with status := "claimed", lastClaimedAt := some now }) db.items
        seq := { db.seq with claims := n } },
      some claim)

/-- `exportAll` (localdb.js line 212-214): the whole current store. -/
def exportAll (db : Store) : Store :=
  db

/-- A structurally valid `importMerge` payload: the three collections, an
absent collection (`data[key] || []`) being the empty list.  The `seq`
field of an exported store is ignored by `importMerge`, so it does not
appear here. -/
structure Snapshot where
  items : List Item := []
  found_reports : List FoundReport := []
  claims : List Claim := []
deriving DecidableEq, Repr

/-- An exported store viewed as an import payload (its `seq` is ignored by
`importMerge`). -/
def storeAsImportData (db : Store) : Snapshot :=
  { items := db.items, found_reports := db.found_reports, claims := db.claims }

/-- `mergeArray` (localdb.js line 219-224): the incoming records whose key
is not already present in the existing collection; the `existing` map is
built once, before the loop. -/
def mergeNew [BEq β] (olds news : List α) (key : α → β) : List α :=
  news.filter (fun n => !(olds.any (fun o => key o == key n)))

/-- `Math.max(db.seq.X || 0, ...ids.concat(0))` (localdb.js line 229-236):
the maximum of the old counter, every id in the post-merge collection, and
`0`.  The old counter is a `Nat`, so flooring at `0` is `Int.toNat` folded
over the ids. -/
def seqAfterMerge (seq : Nat) (ids : List Int) : Nat :=
  ids.foldl (fun acc i => max acc i.toNat) seq

/-- `importMerge` on a structurally valid payload (localdb.js line
216-239): per-collection merge keyed by `id`, then sequence counters are
recomputed from the merged collections. -/
def importMerge (db : Store) (data : Snapshot) : Store × Bool :=
  let items' := db.items ++ mergeNew db.items data.items (fun x => x.id)
  let reports' := db.found_reports ++ mergeNew db.found_reports data.found_reports (fun x => x.id)
  let claims' := db.claims ++ mergeNew db.claims data.claims (fun x => x.id)
  ({ items := items'
     found_reports := reports'
     claims := claims'
     seq :=
       { found_reports := seqAfterMerge db.seq.found_reports (reports'.map (fun x => x.id))
         claims := seqAfterMerge db.seq.claims (claims'.map (fun x => x.id)) } },
    true)

/-- `importMerge` including the outer shape check
`if (!data || typeof data !== "object") return false` (localdb.js line
217): `none` models a payload that is not a well-formed record. -/
def importMergeJS (db : Store) (data : Option Snapshot) : Store × Bool :=
  match data with
  | none => (db, false)
  | some s => importMerge db s

/-- A snapshot carrying a conflicting copy of item "A" (same id, different
fields) and a fresh item "B", used as a witness input. -/
def conflictSnapshot : Snapshot :=
  { items := [{ id := "A", itemName := "Impostor", studentId := "S9", ownerName := "Eve",
                category := "other", strand := none, email := none, contact := none,
                photoPath := none, status := "claimed", createdAt := "t9" },
              { id := "B", itemName := "Keys", studentId := "S2", ownerName := "Bob",
                category := "other", strand := none, email := none, contact := none,
                photoPath := none, status := "registered", createdAt := "t2" }] }

/-- A snapshot whose only found report has id 57, used as a witness
input. -/
def reportSnapshot : Snapshot :=
  { found_reports := [{ id := 57, itemId := "A", finderName := "B", location := "L",
                        photoPath := none, status := "pending", createdAt := "t" }] }

/-- One invocation of a public mutating operation, with its environment
inputs (fresh uuid, timestamp) made explicit. -/
inductive Op where
  | opAddItem (id now : String) (a : AddItemArgs)
  | opAddFoundReport (now : String) (a : AddFoundReportArgs)
  | opVerify (reportId : Int)
  | opAddClaim (now : String) (itemId claimantName : String)
  | opImportMerge (data : Snapshot)
deriving DecidableEq, Repr

/-- The store produced by one public operation. -/
def applyOp (db : Store) : Op → Store
  | .opAddItem id now a => (addItem db id now a).fst
  | .opAddFoundReport now a => (addFoundReport db now a).fst
  | .opVerify reportId => (verifyReportMoveToLost db reportId).fst
  | .opAddClaim now itemId claimantName => (addClaim db now itemId claimantName).fst
  | .opImportMerge data => (importMerge db data).fst

/-- The store reached from `db` by a sequence of public operations. -/
def applyOps (db : Store) (ops : List Op) : Store :=
  ops.foldl applyOp db

/-- The status transitions allowed by the spec's lifecycle invariant:
stay, `registered → lost`, or `lost → claimed`. -/
def statusStepOK (old new : String) : Prop :=
  old = new ∨ (old = "registered" ∧ new = "lost") ∨ (old = "lost" ∧ new = "claimed")

/-- Claim C1 as stated: along every trace of public operations from the
empty store, an item present before and after a step (looked up by id)
only makes allowed forward status transitions. -/
def claimC1Prop : Prop :=
  ∀ (ops : List Op) (op : Op) (i : String) (old new : Item),
    (applyOps emptyStore ops).items.find? (fun x => x.id == i) = some old →
    (applyOp (applyOps emptyStore ops) op).items.find? (fun x => x.id == i) = some new →
    statusStepOK old.status new.status

/-- Claim C3 as stated: whenever `verifyReportMoveToLost` returns `true`,
the matching report is `verified`, its item is `lost`, and a non-null
report photo (truthy or not) is copied to the item's `foundPhotoPath`. -/
def claimC3Prop : Prop :=
  ∀ (db : Store) (rid : Int), (verifyReportMoveToLost db rid).snd = true →
    ∀ r2, (verifyReportMoveToLost db rid).fst.found_reports.find? (fun x => x.id == rid)
        = some r2 →
      r2.status = "verified" ∧
      ∀ it2, (verifyReportMoveToLost db rid).fst.items.find? (fun x => x.id == r2.itemId)
          = some it2 →
        it2.status = "lost" ∧ (r2.photoPath ≠ none → it2.foundPhotoPath = r2.photoPath)

/-- The sequence-counter invariant: each counter dominates every id in its
collection. -/
def seqOK (db : Store) : Prop :=
  (∀ r ∈ db.found_reports, r.id ≤ (db.seq.found_reports : Int))
  ∧ (∀ c ∈ db.claims, c.id ≤ (db.seq.claims : Int))

/-- A concrete store whose only found report references a missing item
(dangling `itemId`), used as a witness input. -/
def danglingStore : Store :=
  { items := []
    found_reports := [{ id := 1, itemId := "A", finderName := "B", location := "L",
                        photoPath := none, status := "pending", createdAt := "t2" }]
    claims := []
    seq := { found_reports := 1, claims := 0 } }

/-- A concrete store holding one registered item, used as a witness
input. -/
def oneItemStore : Store :=
  { items := [{ id := "A", itemName := "Wallet", studentId := "S1", ownerName := "Ana",
                category := "other", strand := none, email := none, contact := none,
                photoPath := none, status := "registered", createdAt := "t1" }]
    found_reports := []
    claims := []
    seq := { found_reports := 0, claims := 0 } }

/-- A concrete store whose report 1 carries a non-null but empty-string
photo (such a record can enter the store through `importMerge`); JS
truthiness (`if (report.photoPath)`) treats it as absent. -/
def emptyPhotoStore : Store :=
  { items := [{ id := "A", itemName := "W", studentId := "S1", ownerName := "Ana",
                category := "other", strand := none, email := none, contact := none,
                photoPath := none, status := "registered", createdAt := "t1" }]
    found_reports := [{ id := 1, itemId := "A", finderName := "B", location := "L",
                        photoPath := some "", status := "pending", createdAt := "t2" }]
    claims := []
    seq := { found_reports := 1, claims := 0 } }

/-- An item of student "S1" created at "t1", used to exhibit the
implementation-defined order of `createdAt` ties. -/
def tieItemA : Item :=
  { id := "A", itemName := "Wallet", studentId := "S1", ownerName := "Ana",
    category := "other", strand := none, email := none, contact := none,
    photoPath := none, status := "registered", createdAt := "t1" }

/-- A second item of student "S1" with the same `createdAt` "t1",
registered after `tieItemA`. -/
def tieItemB : Item :=
  { id := "B", itemName := "Keys", studentId := "S1", ownerName := "Ana",
    category := "other", strand := none, email := none, contact := none,
    photoPath := none, status := "registered", createdAt := "t1" }

/-- A store holding `tieItemA` then `tieItemB`: two items of the same
student with identical `createdAt`. -/
def tieStore : Store :=
  { items := [tieItemA, tieItemB]
    found_reports := []
    claims := []
    seq := { found_reports := 0, claims := 0 } }

/-- Claim C9 as stated: every possible return value of `listItemsByStudent`
consists of exactly the items whose `studentId` strictly equals the
argument, sorted by `createdAt` descending, with items of equal
`createdAt` in their original insertion order (stable sort). -/
def claimC9Prop : Prop :=
  ∀ (db : Store) (sid : String) (l : List Item),
    listItemsByStudent db sid l →
      l.Perm (db.items.filter (fun x => x.studentId == sid))
      ∧ l.Pairwise (fun a b => b.createdAt ≤ a.createdAt)
      ∧ ∀ t : String, l.filter (fun x => x.createdAt == t)
          = (db.items.filter (fun x => x.studentId == sid)).filter
              (fun x => x.createdAt == t)

/-- A concrete store whose report 1 carries a nonempty photo, used as a
witness input. -/
def photoStore : Store :=
  { items := [{ id := "A", itemName := "W", studentId := "S1", ownerName := "Ana",
                category := "other", strand := none, email := none, contact := none,
                photoPath := none, status := "registered", createdAt := "t1" }]
    found_reports := [{ id := 1, itemId := "A", finderName := "B", location := "L",
                        photoPath := some "p.jpg", status := "pending", createdAt := "t2" }]
    claims := []
    seq := { found_reports := 1, claims := 0 } }

theorem find?_updateFirst_self {α : Type} {p : α → Bool} {f : α → α}
    (hp : ∀ x, p (f x) = p x) {l : List α} {a : α} (h : l.find? p = some a) :
    (updateFirst p f l).find? p = some (f a) := by
  induction l with
  | nil => simp at h
  | cons x xs ih =>
    by_cases hx : p x
    · rw [List.find?_cons_of_pos _ hx] at h
      injection h with h
      subst h
      rw [updateFirst, if_pos hx, List.find?_cons_of_pos _ (by rw [hp]; exact hx)]
    · rw [List.find?_cons_of_neg _ hx] at h
      rw [updateFirst, if_neg hx, List.find?_cons_of_neg _ hx]
      exact ih h

theorem find?_updateFirst_cases {α : Type} {p q : α → Bool} {f : α → α}
    (hq : ∀ x, q (f x) = q x) {l : List α} {a : α} (h : l.find? q = some a) :
    (updateFirst p f l).find? q = some a ∨ (updateFirst p f l).find? q = some (f a) := by
  induction l with
  | nil => simp at h
  | cons x xs ih =>
    by_cases hpx : p x
    · rw [updateFirst, if_pos hpx]
      by_cases hqx : q x
      · rw [List.find?_cons_of_pos _ hqx] at h
        injection h with h
        subst h
        right
        rw [List.find?_cons_of_pos _ (by rw [hq]; exact hqx)]
      · rw [List.find?_cons_of_neg _ hqx] at h
        left
        rw [List.find?_cons_of_neg _ (by rw [hq]; exact hqx)]
        exact h
    · rw [updateFirst, if_neg hpx]
      by_cases hqx : q x
      · rw [List.find?_cons_of_pos _ hqx] at h
        left
        rw [List.find?_cons_of_pos _ hqx]
        exact h
      · rw [List.find?_cons_of_neg _ hqx] at h
        rcases ih h with hc | hc
        · left
          rw [List.find?_cons_of_neg _ hqx]
          exact hc
        · right
          rw [List.find?_cons_of_neg _ hqx]
          exact hc

theorem map_updateFirst {α β : Type} {p : α → Bool} {f : α → α} (g : α → β)
    (hg : ∀ x, g (f x) = g x) (l : List α) :
    (updateFirst p f l).map g = l.map g := by
  induction l with
  | nil => rfl
  | cons x xs ih =>
    by_cases hx : p x
    · rw [updateFirst, if_pos hx, List.map_cons, List.map_cons, hg]
    · rw [updateFirst, if_neg hx, List.map_cons, List.map_cons, ih]

theorem mem_mergeNew {α β : Type} [BEq β] {olds news : List α} {key : α → β} {x : α}
    (h : x ∈ mergeNew olds news key) :
    olds.any (fun o => key o == key x) = false ∧ x ∈ news := by
  simp only [mergeNew, List.mem_filter, Bool.not_eq_true'] at h
  exact ⟨h.2, h.1⟩

theorem mergeNew_self {α β : Type} [BEq β] [LawfulBEq β] (l : List α) (key : α → β) :
    mergeNew l l key = [] := by
  simp only [mergeNew, List.filter_eq_nil_iff, Bool.not_eq_true']
  intro a ha h
  rw [List.any_eq_false] at h
  exact h a ha (by simp)

theorem merged_find?_eq {α β : Type} [BEq β] [LawfulBEq β] (olds news : List α)
    (key : α → β) (k : β) (h : olds.any (fun x => key x == k) = true) :
    (olds ++ mergeNew olds news key).find? (fun x => key x == k)
      = olds.find? (fun x => key x == k) := by
  rw [List.find?_append]
  have hsome : (olds.find? (fun x => key x == k)).isSome := by
    rw [List.find?_isSome]
    simpa using h
  rcases Option.isSome_iff_exists.mp hsome with ⟨a, ha⟩
  rw [ha]
  rfl

theorem merged_countP_eq {α β : Type} [BEq β] [LawfulBEq β] (olds news : List α)
    (key : α → β) (k : β) (h : olds.any (fun x => key x == k) = true) :
    (olds ++ mergeNew olds news key).countP (fun x => key x == k)
      = olds.countP (fun x => key x == k) := by
  rw [List.countP_append]
  have hz : (mergeNew olds news key).countP (fun x => key x == k) = 0 := by
    rw [List.countP_eq_zero]
    intro a ha hk
    have hnone := (mem_mergeNew ha).1
    rw [beq_iff_eq] at hk
    subst hk
    rw [hnone] at h
    cases h
  omega

theorem le_seqAfterMerge_init (s : Nat) (ids : List Int) : s ≤ seqAfterMerge s ids := by
  induction ids generalizing s with
  | nil => exact Nat.le_refl s
  | cons i t ih =>
    exact Nat.le_trans (Nat.le_max_left s i.toNat) (ih (max s i.toNat))

theorem le_seqAfterMerge_of_mem {i : Int} {ids : List Int} (h : i ∈ ids) (s : Nat) :
    i ≤ ((seqAfterMerge s ids : Nat) : Int) := by
  induction ids generalizing s with
  | nil => cases h
  | cons j t ih =>
    rcases List.mem_cons.mp h with h | h
    · subst h
      have h1 : (max s i.toNat : Nat) ≤ seqAfterMerge (max s i.toNat) t :=
        le_seqAfterMerge_init _ _
      have h2 : i ≤ ((max s i.toNat : Nat) : Int) :=
        le_trans (Int.self_le_toNat i) (by exact_mod_cast Nat.le_max_right s i.toNat)
      exact le_trans h2 (by exact_mod_cast h1)
    · exact ih h (max s j.toNat)

theorem seqAfterMerge_eq_of_le {s : Nat} {ids : List Int} (h : ∀ i ∈ ids, i ≤ (s : Int)) :
    seqAfterMerge s ids = s := by
  induction ids with
  | nil => rfl
  | cons j t ih =>
    have hj : j.toNat ≤ s := Int.toNat_le.mpr (h j (List.mem_cons_self _ _))
    show seqAfterMerge (max s j.toNat) t = s
    rw [Nat.max_eq_left hj]
    exact ih (fun i hi => h i (List.mem_cons_of_mem _ hi))

theorem seqAfterMerge_cast (s : Nat) (ids : List Int) :
    ((seqAfterMerge s ids : Nat) : Int) = ids.foldl (fun acc i => max acc i) (s : Int) := by
  induction ids generalizing s with
  | nil => rfl
  | cons j t ih =>
    show ((seqAfterMerge (max s j.toNat) t : Nat) : Int) = t.foldl (fun acc i => max acc i) (max (s : Int) j)
    rw [ih]
    congr 1
    rw [Nat.cast_max, Int.toNat_eq_max, ← max_assoc]
    exact max_eq_left (le_trans (by positivity) (le_max_left (s : Int) j))

/-- C5: `verifyReportMoveToLost` on an unknown report id, or on a report
whose `itemId` is dangling, returns `false` with the store unchanged; and
`addClaim` on an unknown item id returns `null` with the store unchanged.
(The operations are total functions, so no exception can be raised.) -/
theorem C5_not_found_no_change (db : Store) (rid : Int) (itemId claimantName now : String) :
    (db.found_reports.find? (fun x => x.id == rid) = none →
        verifyReportMoveToLost db rid = (db, false))
    ∧ (∀ r, db.found_reports.find? (fun x => x.id == rid) = some r →
        db.items.find? (fun x => x.id == r.itemId) = none →
        verifyReportMoveToLost db rid = (db, false))
    ∧ (db.items.find? (fun x => x.id == itemId) = none →
        addClaim db now itemId claimantName = (db, none)) := by
  refine ⟨fun h => ?_, fun r hr hi => ?_, fun h => ?_⟩
  · rw [verifyReportMoveToLost, h]
  · rw [verifyReportMoveToLost, hr]
    dsimp only
    rw [hi]
  · rw [addClaim, h]

/-- Witness for C5 at concrete stores: an unknown report id and an unknown
item id on the empty store, and a report with a dangling `itemId`. -/
theorem C5_not_found_no_change_witness :
    verifyReportMoveToLost emptyStore 1 = (emptyStore, false)
    ∧ verifyReportMoveToLost danglingStore 1 = (danglingStore, false)
    ∧ addClaim emptyStore "t" "Z" "Bob" = (emptyStore, none) := by
  refine ⟨(C5_not_found_no_change emptyStore 1 "Z" "Bob" "t").1 rfl, ?_, ?_⟩
  · exact (C5_not_found_no_change danglingStore 1 "Z" "Bob" "t").2.1
      { id := 1, itemId := "A", finderName := "B", location := "L", photoPath := none,
        status := "pending", createdAt := "t2" } rfl rfl
  · exact (C5_not_found_no_change emptyStore 1 "Z" "Bob" "t").2.2 rfl

/-- C8: `importMerge` returns `false` exactly on a payload that is not a
well-formed record (leaving the store untouched), and `true` on every
structurally valid payload, even when nothing is merged. -/
theorem C8_importMerge_result (db : Store) (data : Option Snapshot) :
    (importMergeJS db data).snd = data.isSome
    ∧ (data = none → importMergeJS db data = (db, false)) := by
  cases data with
  | none => exact ⟨rfl, fun _ => rfl⟩
  | some s => exact ⟨rfl, fun h => by cases h⟩

/-- Witness for C8: an invalid payload on the empty store, and a valid
payload merging zero records. -/
theorem C8_importMerge_result_witness :
    importMergeJS emptyStore none = (emptyStore, false)
    ∧ (importMergeJS emptyStore (some {})).snd = true := by
  exact ⟨(C8_importMerge_result emptyStore none).2 rfl,
    (C8_importMerge_result emptyStore (some {})).1⟩

/-- C4: on a store containing an item with the given id, `addClaim`
returns a claim whose id is the claims counter plus one and whose
`createdAt` is the current time, and afterwards that item's status is
`claimed` with `lastClaimedAt` equal to the claim's `createdAt`. -/
theorem C4_addClaim_success (db : Store) (itemId claimantName now : String) (it : Item)
    (h : db.items.find? (fun x => x.id == itemId) = some it) :
    ∃ c, (addClaim db now itemId claimantName).snd = some c
      ∧ c.id = (db.seq.claims : Int) + 1
      ∧ c.createdAt = now
      ∧ ∃ it2,
          (addClaim db now itemId claimantName).fst.items.find? (fun x => x.id == itemId)
            = some it2
          ∧ it2.status = "claimed" ∧ it2.lastClaimedAt = some c.createdAt := by
  have hfind := find?_updateFirst_self (p := fun x : Item => x.id == itemId)
    (f := fun x : Item => { x with status := "claimed", lastClaimedAt := some now })
    (fun x => rfl) h
  refine ⟨{ id := ((db.seq.claims + 1 : Nat) : Int), itemId := itemId,
            claimantName := claimantName, createdAt := now }, ?_, ?_, rfl,
          { it with status := "claimed", lastClaimedAt := some now }, ?_, rfl, rfl⟩
  · rw [addClaim, h]
  · push_cast
    rfl
  · rw [addClaim, h]
    exact hfind

/-- C3 as stated is false: a verified report with a non-null but
empty-string photo does not have its photo copied to the item, because the
source checks JS truthiness (`if (report.photoPath)`), not non-nullness.
Concrete input: `emptyPhotoStore` and report id 1. -/
theorem C3_counterexample : ¬ claimC3Prop := by
  intro h
  have h1 := h emptyPhotoStore 1 (by decide)
  have h2 := h1 { id := 1, itemId := "A", finderName := "B", location := "L",
                  photoPath := some "", status := "verified", createdAt := "t2" } (by decide)
  have h3 := (h2.2 { id := "A", itemName := "W", studentId := "S1", ownerName := "Ana",
                     category := "other", strand := none, email := none, contact := none,
                     photoPath := none, status := "lost", createdAt := "t1",
                     foundPhotoPath := none, lastClaimedAt := none } (by decide)).2
  have h4 := h3 (by decide)
  exact absurd h4 (by decide)

/-- C3 (amended): if `verifyReportMoveToLost(reportId)` returns `true`,
then afterwards the matching report's status is `verified`, the item
referenced by that report's `itemId` has status exactly `lost`, and if the
report carried a photo that is non-null **and non-empty** then that item's
`foundPhotoPath` equals the report's `photoPath`. -/
theorem C3_verify_success (db : Store) (rid : Int)
    (h : (verifyReportMoveToLost db rid).snd = true) :
    ∃ r2, (verifyReportMoveToLost db rid).fst.found_reports.find? (fun x => x.id == rid)
        = some r2
      ∧ r2.status = "verified"
      ∧ ∃ it2, (verifyReportMoveToLost db rid).fst.items.find? (fun x => x.id == r2.itemId)
            = some it2
          ∧ it2.status = "lost"
          ∧ (truthyStr r2.photoPath = true → it2.foundPhotoPath = r2.photoPath) := by
  rcases hr : db.found_reports.find? (fun x => x.id == rid) with _ | r
  · rw [verifyReportMoveToLost, hr] at h
    cases h
  rcases hi : db.items.find? (fun x => x.id == r.itemId) with _ | it
  · rw [verifyReportMoveToLost, hr] at h
    dsimp only at h
    rw [hi] at h
    cases h
  · have hfr := find?_updateFirst_self (p := fun x : FoundReport => x.id == rid)
      (f := fun x : FoundReport => { x with status := "verified" }) (fun x => rfl) hr
    have hit := find?_updateFirst_self (p := fun x : Item => x.id == r.itemId)
      (f := fun x : Item =>
        { x with
            status := "lost"
            foundPhotoPath := if truthyStr r.photoPath then r.photoPath else x.foundPhotoPath })
      (fun x => rfl) hi
    refine ⟨{ r with status := "verified" }, ?_, rfl,
      { it with
          status := "lost"
          foundPhotoPath := if truthyStr r.photoPath then r.photoPath else it.foundPhotoPath },
      ?_, rfl, ?_⟩
    · rw [verifyReportMoveToLost, hr]
      dsimp only
      rw [hi]
      exact hfr
    · rw [verifyReportMoveToLost, hr]
      dsimp only
      rw [hi]
      exact hit
    · intro ht
      show (if truthyStr r.photoPath = true then r.photoPath else it.foundPhotoPath)
        = r.photoPath
      rw [if_pos ht]

/-- Witness for C3 (amended) on a concrete store with a nonempty report
photo. -/
theorem C3_verify_success_witness :
    ∃ r2, (verifyReportMoveToLost photoStore 1).fst.found_reports.find? (fun x => x.id == 1)
        = some r2
      ∧ r2.status = "verified"
      ∧ ∃ it2, (verifyReportMoveToLost photoStore 1).fst.items.find? (fun x => x.id == r2.itemId)
            = some it2
          ∧ it2.status = "lost"
          ∧ (truthyStr r2.photoPath = true → it2.foundPhotoPath = r2.photoPath) :=
  C3_verify_success photoStore 1 (by decide)

/-- C1 as stated is false: re-verifying the pending report of an item that
has already been claimed moves the item from `claimed` back to `lost`.
Concrete trace: addItem "A", addFoundReport for "A" (report 1),
addClaim on "A", then verifyReportMoveToLost 1. -/
theorem C1_counterexample : ¬ claimC1Prop := by
  intro h
  have hstep := h
    [Op.opAddItem "A" "t1" { itemName := "Wallet", studentId := "S1", ownerName := "Ana" },
     Op.opAddFoundReport "t2" { itemId := "A", finderName := "Ben", location := "Lib" },
     Op.opAddClaim "t3" "A" "Ana"]
    (Op.opVerify 1) "A"
    { id := "A", itemName := "Wallet", studentId := "S1", ownerName := "Ana",
      category := "other", strand := none, email := none, contact := none,
      photoPath := none, status := "claimed", createdAt := "t1",
      foundPhotoPath := none, lastClaimedAt := some "t3" }
    { id := "A", itemName := "Wallet", studentId := "S1", ownerName := "Ana",
      category := "other", strand := none, email := none, contact := none,
      photoPath := none, status := "lost", createdAt := "t1",
      foundPhotoPath := none, lastClaimedAt := some "t3" }
    (by decide) (by decide)
  rw [statusStepOK] at hstep
  revert hstep
  decide

/-- C1 (amended): no public operation ever sets an existing item's status
back to `registered`; a step either leaves an item's status unchanged, or
sets it to `lost` (`verifyReportMoveToLost`) or to `claimed` (`addClaim`),
in each case regardless of the prior status — so `claimed → lost` and
`registered → claimed` are possible, but nothing ever returns to
`registered`. -/
theorem C1_status_step (db : Store) (op : Op) (i : String) (old new : Item)
    (h1 : db.items.find? (fun x => x.id == i) = some old)
    (h2 : (applyOp db op).items.find? (fun x => x.id == i) = some new) :
    new.status = old.status ∨ new.status = "lost" ∨ new.status = "claimed" := by
  cases op with
  | opAddItem id now a =>
    have he : (applyOp db (Op.opAddItem id now a)).items
        = db.items ++ [(addItem db id now a).snd] := rfl
    rw [he, List.find?_append, h1, Option.or_some] at h2
    injection h2 with h2
    subst h2
    exact Or.inl rfl
  | opAddFoundReport now a =>
    have he : (applyOp db (Op.opAddFoundReport now a)).items = db.items := rfl
    rw [he, h1] at h2
    injection h2 with h2
    subst h2
    exact Or.inl rfl
  | opVerify rid =>
    rcases hr : db.found_reports.find? (fun x => x.id == rid) with _ | r
    · have he : (applyOp db (Op.opVerify rid)).items = db.items := by
        show (verifyReportMoveToLost db rid).fst.items = db.items
        rw [verifyReportMoveToLost, hr]
      rw [he, h1] at h2
      injection h2 with h2
      subst h2
      exact Or.inl rfl
    rcases hi : db.items.find? (fun x => x.id == r.itemId) with _ | it
    · have he : (applyOp db (Op.opVerify rid)).items = db.items := by
        show (verifyReportMoveToLost db rid).fst.items = db.items
        rw [verifyReportMoveToLost, hr]
        dsimp only
        rw [hi]
      rw [he, h1] at h2
      injection h2 with h2
      subst h2
      exact Or.inl rfl
    · have he : (applyOp db (Op.opVerify rid)).items
          = updateFirst (fun x => x.id == r.itemId)
              (fun x : Item =>
                { x with
                    status := "lost"
                    foundPhotoPath :=
                      if truthyStr r.photoPath then r.photoPath else x.foundPhotoPath })
              db.items := by
        show (verifyReportMoveToLost db rid).fst.items = _
        rw [verifyReportMoveToLost, hr]
        dsimp only
        rw [hi]
      rw [he] at h2
      rcases find?_updateFirst_cases (p := fun x : Item => x.id == r.itemId)
          (q := fun x : Item => x.id == i)
          (f := fun x : Item =>
            { x with
                status := "lost"
                foundPhotoPath :=
                  if truthyStr r.photoPath then r.photoPath else x.foundPhotoPath })
          (fun x => rfl) h1 with hc | hc
      · rw [hc] at h2
        injection h2 with h2
        subst h2
        exact Or.inl rfl
      · rw [hc] at h2
        injection h2 with h2
        subst h2
        exact Or.inr (Or.inl rfl)
  | opAddClaim now itemId claimantName =>
    rcases hi : db.items.find? (fun x => x.id == itemId) with _ | it
    · have he : (applyOp db (Op.opAddClaim now itemId claimantName)).items = db.items := by
        show (addClaim db now itemId claimantName).fst.items = db.items
        rw [addClaim, hi]
      rw [he, h1] at h2
      injection h2 with h2
      subst h2
      exact Or.inl rfl
    · have he : (applyOp db (Op.opAddClaim now itemId claimantName)).items
          = updateFirst (fun x => x.id == itemId)
              (fun x : Item => { x with status := "claimed", lastClaimedAt := some now })
              db.items := by
        show (addClaim db now itemId claimantName).fst.items = _
        rw [addClaim, hi]
      rw [he] at h2
      rcases find?_updateFirst_cases (p := fun x : Item => x.id == itemId)
          (q := fun x : Item => x.id == i)
          (f := fun x : Item => { x with status := "claimed", lastClaimedAt := some now })
          (fun x => rfl) h1 with hc | hc
      · rw [hc] at h2
        injection h2 with h2
        subst h2
        exact Or.inl rfl
      · rw [hc] at h2
        injection h2 with h2
        subst h2
        exact Or.inr (Or.inr rfl)
  | opImportMerge data =>
    have he : (applyOp db (Op.opImportMerge data)).items
        = db.items ++ mergeNew db.items data.items (fun x => x.id) := rfl
    rw [he, List.find?_append, h1, Option.or_some] at h2
    injection h2 with h2
    subst h2
    exact Or.inl rfl

/-- Witness for C1 (amended) on a concrete verification step: the item of
`photoStore` goes from `registered` to `lost`, which is within the amended
transition set. -/
theorem C1_status_step_witness :
    ({ id := "A", itemName := "W", studentId := "S1", ownerName := "Ana",
       category := "other", strand := none, email := none, contact := none,
       photoPath := none, status := "lost", createdAt := "t1",
       foundPhotoPath := some "p.jpg", lastClaimedAt := none } : Item).status
        = ({ id := "A", itemName := "W", studentId := "S1", ownerName := "Ana",
             category := "other", strand := none, email := none, contact := none,
             photoPath := none, status := "registered", createdAt := "t1" } : Item).status
    ∨ ({ id := "A", itemName := "W", studentId := "S1", ownerName := "Ana",
         category := "other", strand := none, email := none, contact := none,
         photoPath := none, status := "lost", createdAt := "t1",
         foundPhotoPath := some "p.jpg", lastClaimedAt := none } : Item).status = "lost"
    ∨ ({ id := "A", itemName := "W", studentId := "S1", ownerName := "Ana",
         category := "other", strand := none, email := none, contact := none,
         photoPath := none, status := "lost", createdAt := "t1",
         foundPhotoPath := some "p.jpg", lastClaimedAt := none } : Item).status = "claimed" := by
  exact C1_status_step photoStore (Op.opVerify 1) "A"
    { id := "A", itemName := "W", studentId := "S1", ownerName := "Ana",
      category := "other", strand := none, email := none, contact := none,
      photoPath := none, status := "registered", createdAt := "t1" }
    { id := "A", itemName := "W", studentId := "S1", ownerName := "Ana",
      category := "other", strand := none, email := none, contact := none,
      photoPath := none, status := "lost", createdAt := "t1",
      foundPhotoPath := some "p.jpg", lastClaimedAt := none }
    (by decide) (by decide)

/-- C7: `importMerge` never overwrites or deletes: the pre-existing part
of each collection is kept unchanged as a prefix; every appended record
comes from the snapshot and has an id that was not present before; and for
any id present before the merge, both the record found under that id and
the number of records carrying that id are unchanged. -/
theorem C7_import_frame (db : Store) (snap : Snapshot) :
    ((∃ extra, (importMerge db snap).fst.items = db.items ++ extra
        ∧ ∀ x ∈ extra, db.items.any (fun o => o.id == x.id) = false ∧ x ∈ snap.items)
      ∧ ∀ k : String, db.items.any (fun x => x.id == k) = true →
          (importMerge db snap).fst.items.find? (fun x => x.id == k)
              = db.items.find? (fun x => x.id == k)
            ∧ (importMerge db snap).fst.items.countP (fun x => x.id == k)
              = db.items.countP (fun x => x.id == k))
    ∧ ((∃ extra, (importMerge db snap).fst.found_reports = db.found_reports ++ extra
        ∧ ∀ x ∈ extra, db.found_reports.any (fun o => o.id == x.id) = false
            ∧ x ∈ snap.found_reports)
      ∧ ∀ k : Int, db.found_reports.any (fun x => x.id == k) = true →
          (importMerge db snap).fst.found_reports.find? (fun x => x.id == k)
              = db.found_reports.find? (fun x => x.id == k)
            ∧ (importMerge db snap).fst.found_reports.countP (fun x => x.id == k)
              = db.found_reports.countP (fun x => x.id == k))
    ∧ ((∃ extra, (importMerge db snap).fst.claims = db.claims ++ extra
        ∧ ∀ x ∈ extra, db.claims.any (fun o => o.id == x.id) = false ∧ x ∈ snap.claims)
      ∧ ∀ k : Int, db.claims.any (fun x => x.id == k) = true →
          (importMerge db snap).fst.claims.find? (fun x => x.id == k)
              = db.claims.find? (fun x => x.id == k)
            ∧ (importMerge db snap).fst.claims.countP (fun x => x.id == k)
              = db.claims.countP (fun x => x.id == k)) := by
  refine
    ⟨⟨⟨mergeNew db.items snap.items (fun x => x.id), rfl, fun x hx => mem_mergeNew hx⟩,
        fun k hk => ⟨merged_find?_eq _ _ _ _ hk, merged_countP_eq _ _ _ _ hk⟩⟩,
      ⟨⟨mergeNew db.found_reports snap.found_reports (fun x => x.id), rfl,
          fun x hx => mem_mergeNew hx⟩,
        fun k hk => ⟨merged_find?_eq _ _ _ _ hk, merged_countP_eq _ _ _ _ hk⟩⟩,
      ⟨⟨mergeNew db.claims snap.claims (fun x => x.id), rfl, fun x hx => mem_mergeNew hx⟩,
        fun k hk => ⟨merged_find?_eq _ _ _ _ hk, merged_countP_eq _ _ _ _ hk⟩⟩⟩

/-- Witness for C7: a snapshot carrying a conflicting copy of item "A" and
a fresh item "B" leaves the record found under "A" and its multiplicity
unchanged. -/
theorem C7_import_frame_witness :
    (importMerge oneItemStore conflictSnapshot).fst.items.find? (fun x => x.id == "A")
        = oneItemStore.items.find? (fun x => x.id == "A")
      ∧ (importMerge oneItemStore conflictSnapshot).fst.items.countP (fun x => x.id == "A")
        = oneItemStore.items.countP (fun x => x.id == "A") := by
  exact (C7_import_frame oneItemStore conflictSnapshot).1.2 "A" (by decide)

/-- C6: after `importMerge`, each sequence counter equals the maximum of
its previous value and every id present in its collection after the merge;
in particular, if the merged `found_reports` contain id 57, a subsequent
`addFoundReport` returns an id of at least 58. -/
theorem C6_import_seq (db : Store) (snap : Snapshot) (now : String) (a : AddFoundReportArgs) :
    (((importMerge db snap).fst.seq.found_reports : Int)
        = ((importMerge db snap).fst.found_reports.map (fun x => x.id)).foldl
            (fun acc i => max acc i) (db.seq.found_reports : Int))
    ∧ (((importMerge db snap).fst.seq.claims : Int)
        = ((importMerge db snap).fst.claims.map (fun x => x.id)).foldl
            (fun acc i => max acc i) (db.seq.claims : Int))
    ∧ ((57 : Int) ∈ (importMerge db snap).fst.found_reports.map (fun x => x.id) →
        (58 : Int) ≤ ((addFoundReport (importMerge db snap).fst now a).snd).id) := by
  refine ⟨seqAfterMerge_cast _ _, seqAfterMerge_cast _ _, fun h57 => ?_⟩
  have h := le_seqAfterMerge_of_mem h57 db.seq.found_reports
  show (58 : Int)
    ≤ (((importMerge db snap).fst.seq.found_reports + 1 : Nat) : Int)
  have hseq : (57 : Int) ≤ ((importMerge db snap).fst.seq.found_reports : Int) := h
  push_cast
  push_cast at hseq
  omega

/-- Witness for C6: merging a snapshot whose only found report has id 57
into the empty store makes the next found report id 58. -/
theorem C6_import_seq_witness :
    (58 : Int) ≤ ((addFoundReport (importMerge emptyStore reportSnapshot).fst "t"
      { itemId := "A", finderName := "B", location := "L" }).snd).id := by
  exact (C6_import_seq emptyStore reportSnapshot "t"
    { itemId := "A", finderName := "B", location := "L" }).2.2 (by decide)

theorem seqOK_empty : seqOK emptyStore := by
  constructor <;> intro x hx <;> cases hx

theorem seqOK_applyOp {db : Store} (h : seqOK db) (op : Op) : seqOK (applyOp db op) := by
  cases op with
  | opAddItem id now a => exact h
  | opAddFoundReport now a =>
    obtain ⟨h1, h2⟩ := h
    constructor
    · intro r hr
      have he : (applyOp db (Op.opAddFoundReport now a)).found_reports
          = db.found_reports ++ [(addFoundReport db now a).snd] := rfl
      rw [he] at hr
      rcases List.mem_append.mp hr with hm | hm
      · exact le_trans (h1 r hm) (by exact_mod_cast Nat.le_succ _)
      · rcases List.mem_singleton.mp hm with rfl
        exact le_refl _
    · intro c hc
      exact h2 c hc
  | opVerify rid =>
    rcases hr : db.found_reports.find? (fun x => x.id == rid) with _ | r
    · have he : applyOp db (Op.opVerify rid) = db := by
        show (verifyReportMoveToLost db rid).fst = db
        rw [verifyReportMoveToLost, hr]
      rw [he]
      exact h
    rcases hi : db.items.find? (fun x => x.id == r.itemId) with _ | it
    · have he : applyOp db (Op.opVerify rid) = db := by
        show (verifyReportMoveToLost db rid).fst = db
        rw [verifyReportMoveToLost, hr]
        dsimp only
        rw [hi]
      rw [he]
      exact h
    · obtain ⟨h1, h2⟩ := h
      have he : applyOp db (Op.opVerify rid)
          = { db with
                items :=
                  updateFirst (fun x => x.id == r.itemId)
                    (fun x : Item =>
                      { x with
                          status := "lost"
                          foundPhotoPath :=
                            if truthyStr r.photoPath then r.photoPath
                            else x.foundPhotoPath }) db.items
                found_reports :=
                  updateFirst (fun x => x.id == rid)
                    (fun x : FoundReport => { x with status := "verified" })
                    db.found_reports } := by
        show (verifyReportMoveToLost db rid).fst = _
        rw [verifyReportMoveToLost, hr]
        dsimp only
        rw [hi]
      rw [he]
      constructor
      · intro r2 hr2
        have hm : r2.id ∈ db.found_reports.map (fun y => y.id) := by
          rw [← map_updateFirst (p := fun x : FoundReport => x.id == rid)
            (f := fun x : FoundReport => { x with status := "verified" })
            (fun y : FoundReport => y.id) (fun x => rfl)]
          exact List.mem_map_of_mem _ hr2
        rcases List.mem_map.mp hm with ⟨y, hy, hxy⟩
        rw [← hxy]
        exact h1 y hy
      · intro c hc
        exact h2 c hc
  | opAddClaim now itemId claimantName =>
    rcases hi : db.items.find? (fun x => x.id == itemId) with _ | it
    · have he : applyOp db (Op.opAddClaim now itemId claimantName) = db := by
        show (addClaim db now itemId claimantName).fst = db
        rw [addClaim, hi]
      rw [he]
      exact h
    · obtain ⟨h1, h2⟩ := h
      have he : applyOp db (Op.opAddClaim now itemId claimantName)
          = { db with
                claims := db.claims ++
                  [{ id := ((db.seq.claims + 1 : Nat) : Int), itemId := itemId,
                     claimantName := claimantName, createdAt := now }]
                items :=
                  updateFirst (fun x => x.id == itemId)
                    (fun x : Item =>
                      { x with status := "claimed", lastClaimedAt := some now })
                    db.items
                seq := { db.seq with claims := db.seq.claims + 1 } } := by
        show (addClaim db now itemId claimantName).fst = _
        rw [addClaim, hi]
      rw [he]
      constructor
      · intro r hr
        exact h1 r hr
      · intro c hc
        rcases List.mem_append.mp hc with hm | hm
        · exact le_trans (h2 c hm) (by exact_mod_cast Nat.le_succ _)
        · rcases List.mem_singleton.mp hm with rfl
          exact le_refl _
  | opImportMerge data =>
    constructor
    · intro r hr
      exact le_seqAfterMerge_of_mem (List.mem_map_of_mem _ hr) _
    · intro c hc
      exact le_seqAfterMerge_of_mem (List.mem_map_of_mem _ hc) _

theorem seqOK_applyOps (db : Store) (h : seqOK db) (ops : List Op) :
    seqOK (applyOps db ops) := by
  induction ops generalizing db with
  | nil => exact h
  | cons op t ih => exact ih _ (seqOK_applyOp h op)

theorem importMerge_self_of_seqOK {db : Store} (h : seqOK db) :
    importMerge db (storeAsImportData db) = (db, true) := by
  obtain ⟨h1, h2⟩ := h
  have hmi : mergeNew db.items db.items (fun x => x.id) = [] := mergeNew_self _ _
  have hmr : mergeNew db.found_reports db.found_reports (fun x => x.id) = [] :=
    mergeNew_self _ _
  have hmc : mergeNew db.claims db.claims (fun x => x.id) = [] := mergeNew_self _ _
  have hsf : seqAfterMerge db.seq.found_reports (db.found_reports.map (fun x => x.id))
      = db.seq.found_reports := by
    apply seqAfterMerge_eq_of_le
    intro i hm
    rcases List.mem_map.mp hm with ⟨y, hy, hyi⟩
    rw [← hyi]
    exact h1 y hy
  have hsc : seqAfterMerge db.seq.claims (db.claims.map (fun x => x.id)) = db.seq.claims := by
    apply seqAfterMerge_eq_of_le
    intro i hm
    rcases List.mem_map.mp hm with ⟨y, hy, hyi⟩
    rw [← hyi]
    exact h2 y hy
  rw [importMerge]
  dsimp only [storeAsImportData]
  rw [hmi, hmr, hmc, List.append_nil, List.append_nil, List.append_nil, hsf, hsc]

/-- C2: for every store reachable from the empty store by public
operations, re-importing its own export is a no-op: `importMerge` returns
`true`, all three collections are unchanged, and both sequence counters
are unchanged. -/
theorem C2_export_import_roundtrip (ops : List Op) :
    importMerge (applyOps emptyStore ops)
        (storeAsImportData (exportAll (applyOps emptyStore ops)))
      = (applyOps emptyStore ops, true) :=
  importMerge_self_of_seqOK (seqOK_applyOps emptyStore seqOK_empty ops)

/-- C10: on every store reachable from the empty store, each sequence
counter dominates every id in its collection, so a freshly issued id
(counter + 1) never equals the id of an existing record. -/
theorem C10_seq_dominates (ops : List Op) :
    ((∀ r ∈ (applyOps emptyStore ops).found_reports,
        r.id ≤ ((applyOps emptyStore ops).seq.found_reports : Int))
      ∧ (∀ c ∈ (applyOps emptyStore ops).claims,
        c.id ≤ ((applyOps emptyStore ops).seq.claims : Int)))
    ∧ ((∀ r ∈ (applyOps emptyStore ops).found_reports,
        r.id ≠ ((applyOps emptyStore ops).seq.found_reports : Int) + 1)
      ∧ (∀ c ∈ (applyOps emptyStore ops).claims,
        c.id ≠ ((applyOps emptyStore ops).seq.claims : Int) + 1)) := by
  obtain ⟨h1, h2⟩ := seqOK_applyOps emptyStore seqOK_empty ops
  refine ⟨⟨h1, h2⟩, fun r hr => ?_, fun c hc => ?_⟩
  · have := h1 r hr
    omega
  · have := h2 c hc
    omega

/-- Witness for C10 on a one-step trace: the report created by
`addFoundReport` has id 1 and the counter is 1. -/
theorem C10_seq_dominates_witness :
    (1 : Int) ≤ ((applyOps emptyStore
      [Op.opAddFoundReport "t" { itemId := "A", finderName := "B", location := "L" }]
      ).seq.found_reports : Int) := by
  exact (C10_seq_dominates
    [Op.opAddFoundReport "t" { itemId := "A", finderName := "B", location := "L" }]).1.1
    { id := 1, itemId := "A", finderName := "B", location := "L", photoPath := none,
      status := "pending", createdAt := "t" } (by decide)

theorem byCreatedAtDesc_trans (a b c : Item) :
    byCreatedAtDesc a b = true → byCreatedAtDesc b c = true → byCreatedAtDesc a c = true := by
  simp only [byCreatedAtDesc, Bool.not_eq_true', decide_eq_false_iff_not, not_lt]
  exact fun hab hbc => le_trans hbc hab

theorem byCreatedAtDesc_total (a b : Item) :
    byCreatedAtDesc a b || byCreatedAtDesc b a := by
  simp only [byCreatedAtDesc, Bool.or_eq_true, Bool.not_eq_true', decide_eq_false_iff_not,
    not_lt]
  exact le_total b.createdAt a.createdAt

/-- C9 as stated is false: the comparator returns -1 on equal `createdAt`
in both orientations, so ECMAScript leaves the order of ties
implementation-defined, and the tie-reversed list `[tieItemB, tieItemA]`
is an admissible return value of `listItemsByStudent tieStore "S1"` (a
descending-sorted permutation of the filter) whose equal-`createdAt` items
are not in insertion order. -/
theorem C9_counterexample : ¬ claimC9Prop := by
  intro h
  have hfilter : tieStore.items.filter (fun x => x.studentId == "S1")
      = [tieItemA, tieItemB] := by decide
  have hrel : listItemsByStudent tieStore "S1" [tieItemB, tieItemA] := by
    rw [listItemsByStudent, sortOutcomeByCreatedAtDesc, hfilter]
    exact ⟨List.Perm.swap _ _ _, by simp [List.pairwise_cons, tieItemA, tieItemB]⟩
  have ht := (h tieStore "S1" [tieItemB, tieItemA] hrel).2.2 "t1"
  rw [hfilter] at ht
  exact absurd ht (by decide)

/-- C9 (amended): every possible return value of `listItemsByStudent`
contains exactly the items whose `studentId` is strictly equal to the
argument (case-sensitive, no trimming), each occurring exactly as often as
in the store, sorted by `createdAt` descending — and at least one such
return value exists.  The relative order of items with equal `createdAt`
is implementation-defined (the comparator never returns 0), so insertion
order of ties is not guaranteed. -/
theorem C9_listItemsByStudent_spec (db : Store) (sid : String) :
    (∃ l, listItemsByStudent db sid l)
    ∧ ∀ l, listItemsByStudent db sid l →
        (∀ x : Item, x ∈ l ↔ x ∈ db.items ∧ (x.studentId == sid) = true)
        ∧ (∀ x : Item, l.count x
            = (db.items.filter (fun y => y.studentId == sid)).count x)
        ∧ l.Pairwise (fun a b => b.createdAt ≤ a.createdAt) := by
  constructor
  · refine ⟨(db.items.filter (fun x => x.studentId == sid)).mergeSort byCreatedAtDesc,
      List.mergeSort_perm _ _, ?_⟩
    have hs := List.sorted_mergeSort byCreatedAtDesc_trans byCreatedAtDesc_total
      (db.items.filter (fun x => x.studentId == sid))
    refine List.Pairwise.imp ?_ hs
    intro a b hab
    have hab2 : byCreatedAtDesc a b = true := hab
    simp only [byCreatedAtDesc, Bool.not_eq_true', decide_eq_false_iff_not, not_lt] at hab2
    exact hab2
  · rintro l ⟨hperm, hpair⟩
    refine ⟨?_, ?_, hpair⟩
    · intro x
      rw [hperm.mem_iff, List.mem_filter]
    · intro x
      exact hperm.count_eq x

/-- Witness for C9 (amended): the tie-reversed admissible outcome on
`tieStore` contains exactly the two matching items and is descending. -/
theorem C9_listItemsByStudent_spec_witness :
    (tieItemA ∈ ([tieItemB, tieItemA] : List Item)
        ↔ tieItemA ∈ tieStore.items ∧ (tieItemA.studentId == "S1") = true)
    ∧ ([tieItemB, tieItemA] : List Item).Pairwise (fun a b => b.createdAt ≤ a.createdAt) := by
  have hrel : listItemsByStudent tieStore "S1" [tieItemB, tieItemA] := by
    have hfilter : tieStore.items.filter (fun x => x.studentId == "S1")
        = [tieItemA, tieItemB] := by decide
    rw [listItemsByStudent, sortOutcomeByCreatedAtDesc, hfilter]
    exact ⟨List.Perm.swap _ _ _, by simp [List.pairwise_cons, tieItemA, tieItemB]⟩
  have h := (C9_listItemsByStudent_spec tieStore "S1").2 [tieItemB, tieItemA] hrel
  exact ⟨h.1 tieItemA, h.2.2⟩

/-- Witness for C4 on a concrete one-item store. -/
theorem C4_addClaim_success_witness :
    ∃ c, (addClaim oneItemStore "t3" "A" "Ana").snd = some c
      ∧ c.id = (oneItemStore.seq.claims : Int) + 1
      ∧ c.createdAt = "t3"
      ∧ ∃ it2,
          (addClaim oneItemStore "t3" "A" "Ana").fst.items.find? (fun x => x.id == "A")
            = some it2
          ∧ it2.status = "claimed" ∧ it2.lastClaimedAt = some c.createdAt := by
  exact C4_addClaim_success oneItemStore "A" "Ana" "t3"
    { id := "A", itemName := "Wallet", studentId := "S1", ownerName := "Ana",
      category := "other", strand := none, email := none, contact := none,
      photoPath := none, status := "registered", createdAt := "t1" } rfl

end LocalDB
